import Mathlib

/-!
# Shallow embedding of `src/renderer/DrwRendererBase.ts` (colors-drw-parser)

The repository's replay engine (`DrwRendererBase`) consumes an immutable
command log and drives an abstract rendering backend.  We embed the engine
state as a Lean structure and every method of the base class as a pure
state-transformer.  Calls into the abstract backend (`resetLayer`,
`clearLayer`, `copyLayer`, `updateBrush`, `beginStroke`, `strokeTo`,
`finalizeStroke`, `flip`) carry no engine-visible state of their own, so we
record them in an append-only effect trace.

The files `src/renderer/State.ts` (ToolState / UserState) and
`src/parser` (DrwParser, Color, CommandType, LayerAction) are not part of
the sources; their shapes are modelled from the spec where noted.

JavaScript `number` fields that are `undefined` until `setCanvasWidth` is
called (`this.width`, `this.height` and values derived from them) are
modelled as `Option ℚ`, `none` standing for `undefined`/NaN-propagation.
-/

namespace Drw

/-- Modelled from the spec: `LayerAction` enumeration from the missing
`src/parser` module; the four values the dispatcher's sub-table switches on
(`LAYERACTION_SET`, `LAYERACTION_NEWPOS`, `LAYERACTION_CLEAR`,
`LAYERACTION_COPY`). -/
inductive LayerAction where
  | set
  | newpos
  | clear
  | copy
deriving DecidableEq, Repr

/-- Modelled from the spec: one immutable command of the session log, as
delivered by the missing `src/parser` module.  Each `CommandType`
discriminant becomes a constructor carrying the fields `handleCommand`
reads; optional fields (`layer`, `color`) are `Option`.  `unknown` stands
for any forward-compatible command kind outside the four the dispatcher
handles.  Colors and brush enums are opaque to the engine and modelled as
`Nat`. -/
inductive Cmd where
  | draw (x y pressure : ℚ)
  | drawEnd (layer : Option Nat) (layerAction : LayerAction)
  | colorChange (color : Option Nat) (flipX flipY : Bool) (user : Nat)
  | sizeChange (size : ℚ) (brushControl brushType : Nat) (opacity : ℚ)
  | unknown
deriving DecidableEq, Repr

/-- Modelled from the spec: per-user `ToolState` from the missing
`src/renderer/State.ts`, with exactly the fields §3 of the spec lists and
`handleCommand` mutates.  `lastX`, `lastY` and `brushRadius` are scaled by
the canvas width/height, which may still be `undefined`, hence `Option ℚ`. -/
structure ToolState where
  layer : Nat
  lastX : Option ℚ
  lastY : Option ℚ
  pressure : ℚ
  isDrawing : Bool
  color : Nat
  brushRadius : Option ℚ
  brushControl : Nat
  brushType : Nat
  opacity : ℚ
  user : Nat
deriving DecidableEq, Repr

/-- Modelled from the spec: initial `ToolState` of a freshly created
`UserState` (the constructor lives in the missing `State.ts`); neutral
defaults, no stroke in progress. -/
def ToolState.initial : ToolState :=
  { layer := 0
    lastX := none
    lastY := none
    pressure := 0
    isDrawing := false
    color := 0
    brushRadius := none
    brushControl := 0
    brushType := 0
    opacity := 1
    user := 0 }

/-- Modelled from the spec: the per-user auxiliary pixel buffer
(`alphaBuffer : Uint8ClampedArray`).  Its pixel contents live backend-side;
the engine-visible datum is the canvas size it was allocated for, which is
fixed at creation (`new UserState(width, height)`). -/
structure AlphaBuffer where
  width : Option ℚ
  height : Option ℚ
deriving DecidableEq, Repr

/-- Modelled from the spec: `UserState` bundles one `ToolState` and one
auxiliary pixel buffer sized to the canvas at creation time. -/
structure UserState where
  toolState : ToolState
  alphaBuffer : AlphaBuffer
deriving DecidableEq, Repr

/-- Constructor `new UserState(width, height)`: fresh tool state plus a buffer
allocated for the current canvas size. -/
def UserState.new (w h : Option ℚ) : UserState :=
  { toolState := ToolState.initial
    alphaBuffer := { width := w, height := h } }

/-- One layer handle of the stack (`DrwLayerBase`): `width`, `height`,
`isVisible`, plus an identity tag `id` so that reorderings of the stack can
be observed (the pixel contents live backend-side). -/
structure DrwLayer where
  id : Nat
  width : Option ℚ
  height : Option ℚ
  isVisible : Bool
deriving DecidableEq, Repr

/-- A call into the abstract rendering backend, recorded in order of
emission. -/
inductive Effect where
  | resetLayer (layerIndex : Nat)
  | clearLayer (layerIndex : Nat)
  | copyLayer (srcLayerIndex dstLayerIndex : Nat)
  | updateBrush
  | beginStroke (x y : Option ℚ) (pressure : ℚ)
  | strokeTo (x y : Option ℚ) (pressure : ℚ)
  | finalizeStroke
  | flip (flipX flipY : Bool)
deriving DecidableEq, Repr

/-- The `PlaybackState` record of the source, minus the completion
callback closure (invocations of the callback are counted in `Session`). -/
structure PlaybackState where
  isPlaying : Bool
  commandsPerUpdate : Int
  currCommandIndex : Int
  numCommands : Int
deriving DecidableEq, Repr

/-- The engine-visible state of a `DrwRendererBase` instance.
`userStates` is the lazily grown per-user registry (`UserStates` object,
keyed by user index); `activeUser` is the key whose `toolState` /
`alphaBuffer` the fields `this.toolState` / `this.alphaBuffer` currently
alias.  `drw` and `aspect` stand for the parsed session
(`this.drw.getCommand` / `this.drw.header.aspect`).  `trace` is the
chronological list of backend calls made so far. -/
structure Engine where
  width : Option ℚ
  height : Option ℚ
  aspect : ℚ
  drw : List Cmd
  layers : List DrwLayer
  userStates : List (Nat × UserState)
  activeUser : Nat
  playback : PlaybackState
  trace : List Effect
deriving DecidableEq, Repr

/-- JS `array.splice(i, 1)` removal (in-range behaviour). -/
def removeAt : Nat → List DrwLayer → List DrwLayer
  | _, [] => []
  | 0, _ :: xs => xs
  | n + 1, x :: xs => x :: removeAt n xs

/-- JS `array.splice(i, 0, a)` insertion; an index past the end appends,
as `splice` clamps it to the array length. -/
def insertAt : Nat → DrwLayer → List DrwLayer → List DrwLayer
  | _, a, [] => [a]
  | 0, a, l => a :: l
  | n + 1, a, x :: xs => x :: insertAt n a xs

namespace Engine

/-- Append one backend call to the trace. -/
def emit (e : Engine) (ef : Effect) : Engine :=
  { e with trace := e.trace ++ [ef] }

/-- First binding of a user index in the registry. -/
def lookupUser : List (Nat × UserState) → Nat → Option UserState
  | [], _ => none
  | (k, v) :: rest, u => if k = u then some v else lookupUser rest u

/-- Field `this.toolState`: the tool state of the active user.  The registry
always contains the active user (the constructor and `setUser` ensure it),
so the default is never reached on states built by the operations below. -/
def toolState (e : Engine) : ToolState :=
  (lookupUser e.userStates e.activeUser).elim ToolState.initial UserState.toolState

/-- Field `this.alphaBuffer`: the auxiliary pixel buffer of the active user. -/
def alphaBuffer (e : Engine) : AlphaBuffer :=
  (lookupUser e.userStates e.activeUser).elim { width := none, height := none }
    UserState.alphaBuffer

/-- Replace the tool state bound to key `u` in the registry (the registry
never holds two bindings of one key, so this touches at most one entry). -/
def updateUser (f : ToolState → ToolState) : List (Nat × UserState) → Nat → List (Nat × UserState)
  | [], _ => []
  | (k, v) :: rest, u =>
      (if k = u then (k, { v with toolState := f v.toolState }) else (k, v)) :: updateUser f rest u

/-- Mutate the active user's tool state in place (writes through the
`this.toolState` alias). -/
def updateToolState (e : Engine) (f : ToolState → ToolState) : Engine :=
  { e with userStates := updateUser f e.userStates e.activeUser }

/-- Method `setUser(userIndex)`: lazily create the user's state sized to the
current canvas, then alias `this.toolState` / `this.alphaBuffer` to it. -/
def setUser (e : Engine) (userIndex : Nat) : Engine :=
  let states :=
    if (lookupUser e.userStates userIndex).isSome then e.userStates
    else e.userStates ++ [(userIndex, UserState.new e.width e.height)]
  { e with userStates := states, activeUser := userIndex }

/-- Method `setLayer(layerIndex)`: sets the active painting layer on the tool
state. -/
def setLayer (e : Engine) (layerIndex : Nat) : Engine :=
  e.updateToolState fun ts => { ts with layer := layerIndex }

/-- Method `moveLayer(srcLayerIndex, dstLayerIndex)`: splice the layer out of the
stack and reinsert it at the destination (list-splice semantics, not a
swap).  An out-of-range source leaves the stack unchanged; the engine only
ever calls it with in-range indices. -/
def moveLayer (e : Engine) (srcLayerIndex dstLayerIndex : Nat) : Engine :=
  match e.layers.get? srcLayerIndex with
  | none => e
  | some srcLayer =>
      { e with layers := insertAt dstLayerIndex srcLayer (removeAt srcLayerIndex e.layers) }

/-- Call `resetLayer(i)` for every stack index, in order — the backward-seek
"repaint from scratch" loop of `seekCommand`.  The backend blanks the
pixels; the engine side only emits the calls. -/
def resetAllLayers (e : Engine) : Engine :=
  { e with trace := e.trace ++ (List.range e.layers.length).map Effect.resetLayer }

/-- Accessor `this.drw.getCommand(i)`: random access into the immutable command
log (in-range during replay; out of range never occurs and is mapped to
`unknown`). -/
def getCommand (e : Engine) (i : Int) : Cmd :=
  if i < 0 then Cmd.unknown else e.drw.getD i.toNat Cmd.unknown

/-- Set `playbackState.currCommandIndex` (the final statement of
`handleCommand`). -/
def setCurr (e : Engine) (i : Int) : Engine :=
  { e with playback := { e.playback with currCommandIndex := i } }

/-- Method `handleCommand(cmdIndex)`: dispatch one command against the current
tool state and layer stack, then record the cursor position.  A direct
transcription of the `switch` in the source. -/
def handleCommand (e : Engine) (cmdIndex : Int) : Engine :=
  let cmd := e.getCommand cmdIndex
  let e' : Engine :=
    match cmd with
    | Cmd.draw cx cy cp =>
        let x := e.width.map fun w => cx * w
        let y := e.height.map fun h => cy * h
        let e1 :=
          if e.toolState.isDrawing = false then e.emit (Effect.beginStroke x y cp)
          else e.emit (Effect.strokeTo x y cp)
        e1.updateToolState fun ts =>
          { ts with pressure := cp, lastX := x, lastY := y, isDrawing := true }
    | Cmd.drawEnd layerOpt layerAction =>
        match layerOpt with
        | none =>
            (e.emit Effect.finalizeStroke).updateToolState fun ts =>
              { ts with isDrawing := false }
        | some layer =>
            match layerAction with
            | LayerAction.set => e.setLayer layer
            | LayerAction.newpos =>
                (e.moveLayer e.toolState.layer layer).setLayer e.toolState.layer
            | LayerAction.clear => e.emit (Effect.clearLayer layer)
            | LayerAction.copy => e.emit (Effect.copyLayer e.toolState.layer layer)
    | Cmd.colorChange colorOpt fx fy user =>
        match colorOpt with
        | some c => (e.updateToolState fun ts => { ts with color := c }).emit Effect.updateBrush
        | none =>
            let e1 :=
              if fx then e.emit (Effect.flip true false)
              else if fy then e.emit (Effect.flip false true)
              else e
            e1.updateToolState fun ts => { ts with user := user }
    | Cmd.sizeChange size brushControl brushType opacity =>
        (e.updateToolState fun ts =>
          { ts with
            brushRadius := e.width.map fun w => size * w
            brushControl := brushControl
            brushType := brushType
            opacity := opacity }).emit Effect.updateBrush
    | Cmd.unknown => e
  e'.setCurr cmdIndex

/-- Apply `handleCommand` to `count` consecutive indices starting at
`start` — the replay loop `for (cmd = startIndex; cmd <= newCommandIndex;
cmd++)`. -/
def applyRange (e : Engine) (start : Int) : Nat → Engine
  | 0 => e
  | k + 1 => (e.handleCommand start).applyRange (start + 1) k

/-- The clamp at the top of `seekCommand`:
`Math.min(Math.max(0, newCommandIndex), numCommands - 1)`. -/
def clampIndex (target numCommands : Int) : Int :=
  min (max 0 target) (numCommands - 1)

/-- Method `seekCommand(newCommandIndex)` without the completion callback (which
lives in `Session`): clamp, choose full-replay versus incremental replay,
run the loop.  (The source binds the clamped index to a local variable; it
is inlined here.) -/
def seekEngine (e : Engine) (newCommandIndex : Int) : Engine :=
  if clampIndex newCommandIndex e.playback.numCommands < e.playback.currCommandIndex then
    (e.resetAllLayers).applyRange 0
      (clampIndex newCommandIndex e.playback.numCommands + 1).toNat
  else
    e.applyRange (e.playback.currCommandIndex + 1)
      (clampIndex newCommandIndex e.playback.numCommands - e.playback.currCommandIndex).toNat

/-- Method `setCanvasWidth(width)`: recompute the height from the header's aspect
ratio, store both, and propagate the new size to every layer
(`layer.setSize(width, height)`; resizing the layer's recorded dimensions
is the backend contract of `setSize`, modelled from the spec since the
concrete layers live outside the base class). -/
def setCanvasWidth (e : Engine) (width : ℚ) : Engine :=
  let height := width / e.aspect
  { e with
    width := some width
    height := some height
    layers := e.layers.map fun l => { l with width := some width, height := some height } }

/-- The constructor: five layers created with the (still undefined) canvas
size, `setUser(0)`, `setLayer(0)`, and `numCommands` taken from the
parsed session. -/
def fresh (drw : List Cmd) (aspect : ℚ) : Engine :=
  let e : Engine :=
    { width := none
      height := none
      aspect := aspect
      drw := drw
      layers :=
        [ { id := 0, width := none, height := none, isVisible := true }
          , { id := 1, width := none, height := none, isVisible := true }
          , { id := 2, width := none, height := none, isVisible := true }
          , { id := 3, width := none, height := none, isVisible := true }
          , { id := 4, width := none, height := none, isVisible := true } ]
      userStates := []
      activeUser := 0
      playback :=
        { isPlaying := false
          commandsPerUpdate := 200
          currCommandIndex := -1
          numCommands := 0 }
      trace := [] }
  let e := e.setUser 0
  let e := e.setLayer 0
  { e with playback := { e.playback with numCommands := drw.length } }

end Engine

/-- An engine together with the number of times the registered completion
callback has been invoked (the callback itself is opaque host code; the
spec's contract is about how often it fires). -/
structure Session where
  engine : Engine
  callbacks : Nat
deriving DecidableEq, Repr

namespace Session

/-- A freshly constructed renderer: no callback has fired yet. -/
def fresh (drw : List Cmd) (aspect : ℚ) : Session :=
  { engine := Engine.fresh drw aspect, callbacks := 0 }

/-- Method `seekCommand(newCommandIndex)`: the seek algorithm followed by the
unconditional `playbackState.updateCompleteCallback()`. -/
def seekCommand (s : Session) (newCommandIndex : Int) : Session :=
  { engine := s.engine.seekEngine newCommandIndex, callbacks := s.callbacks + 1 }

/-- Method `play()`: set the running flag (the host scheduler will then deliver
`playbackTick`s once per frame). -/
def play (s : Session) : Session :=
  { s with engine := { s.engine with playback := { s.engine.playback with isPlaying := true } } }

/-- Method `pause()`: clear the running flag. -/
def pause (s : Session) : Session :=
  { s with engine := { s.engine with playback := { s.engine.playback with isPlaying := false } } }

/-- The seek target of one playback tick:
`currCommandIndex + commandsPerUpdate`. -/
def tickTarget (s : Session) : Int :=
  s.engine.playback.currCommandIndex + s.engine.playback.commandsPerUpdate

/-- One tick of `playbackLoop()`: seek forward by `commandsPerUpdate`,
then either reschedule (returned flag `true`) or clear the running flag
(returned flag `false`). -/
def playbackTick (s : Session) : Session × Bool :=
  if (s.seekCommand (tickTarget s)).engine.playback.isPlaying = true ∧
      (s.seekCommand (tickTarget s)).engine.playback.currCommandIndex <
        (s.seekCommand (tickTarget s)).engine.playback.numCommands - 1 then
    (s.seekCommand (tickTarget s), true)
  else
    ((s.seekCommand (tickTarget s)).pause, false)

/-- Sequence `seek(0); seek(1); …; seek(i)` — the one-command-at-a-time seek
sequence of the spec's convergence property. -/
def seqSeek (s : Session) : Nat → Session
  | 0 => s.seekCommand 0
  | k + 1 => (seqSeek s k).seekCommand (k + 1)

end Session

/-- Is this backend call a `resetLayer` call? -/
def isResetEffect : Effect → Bool
  | Effect.resetLayer _ => true
  | _ => false

/-- Number of `resetLayer` calls in a trace. -/
def countReset (t : List Effect) : Nat :=
  (t.filter isResetEffect).length

/-- Example log: a single layer-MOVE command (move the active layer to
stack position 2). -/
def moveLog : List Cmd := [Cmd.drawEnd (some 2) LayerAction.newpos]

/-- Example log: a layer-MOVE followed by an unrelated command, so that a
backward seek replays the MOVE on the already-permuted stack. -/
def moveLog2 : List Cmd := [Cmd.drawEnd (some 2) LayerAction.newpos, Cmd.unknown]

/-- Example log for the playback-loop example: 450 commands (their content
is irrelevant to the playback bookkeeping). -/
def longLog : List Cmd := List.replicate 450 Cmd.unknown

/-- Example log with three commands. -/
def threeLog : List Cmd := List.replicate 3 Cmd.unknown

/-- Example log with one color-changing COLOR_CHANGE command. -/
def colorLog : List Cmd := [Cmd.colorChange (some 7) false false 3]

end Drw

/-!
## Basic lemmas about the engine operations
-/

namespace Drw

namespace Engine

@[simp] theorem emit_playback (e : Engine) (ef : Effect) : (e.emit ef).playback = e.playback := rfl

@[simp] theorem emit_trace (e : Engine) (ef : Effect) : (e.emit ef).trace = e.trace ++ [ef] := rfl

@[simp] theorem emit_layers (e : Engine) (ef : Effect) : (e.emit ef).layers = e.layers := rfl

@[simp] theorem emit_userStates (e : Engine) (ef : Effect) :
    (e.emit ef).userStates = e.userStates := rfl

@[simp] theorem emit_activeUser (e : Engine) (ef : Effect) :
    (e.emit ef).activeUser = e.activeUser := rfl

@[simp] theorem updateToolState_playback (e : Engine) (f : ToolState → ToolState) :
    (e.updateToolState f).playback = e.playback := rfl

@[simp] theorem updateToolState_trace (e : Engine) (f : ToolState → ToolState) :
    (e.updateToolState f).trace = e.trace := rfl

@[simp] theorem updateToolState_layers (e : Engine) (f : ToolState → ToolState) :
    (e.updateToolState f).layers = e.layers := rfl

@[simp] theorem updateToolState_activeUser (e : Engine) (f : ToolState → ToolState) :
    (e.updateToolState f).activeUser = e.activeUser := rfl

@[simp] theorem setLayer_playback (e : Engine) (i : Nat) :
    (e.setLayer i).playback = e.playback := rfl

@[simp] theorem setLayer_trace (e : Engine) (i : Nat) : (e.setLayer i).trace = e.trace := rfl

@[simp] theorem moveLayer_playback (e : Engine) (s d : Nat) :
    (e.moveLayer s d).playback = e.playback := by
  unfold moveLayer; cases e.layers.get? s <;> rfl

@[simp] theorem moveLayer_trace (e : Engine) (s d : Nat) :
    (e.moveLayer s d).trace = e.trace := by
  unfold moveLayer; cases e.layers.get? s <;> rfl

@[simp] theorem moveLayer_userStates (e : Engine) (s d : Nat) :
    (e.moveLayer s d).userStates = e.userStates := by
  unfold moveLayer; cases e.layers.get? s <;> rfl

@[simp] theorem moveLayer_activeUser (e : Engine) (s d : Nat) :
    (e.moveLayer s d).activeUser = e.activeUser := by
  unfold moveLayer; cases e.layers.get? s <;> rfl

@[simp] theorem setCurr_playback (e : Engine) (i : Int) :
    (e.setCurr i).playback = { e.playback with currCommandIndex := i } := rfl

@[simp] theorem setCurr_trace (e : Engine) (i : Int) : (e.setCurr i).trace = e.trace := rfl

@[simp] theorem resetAllLayers_playback (e : Engine) : (e.resetAllLayers).playback = e.playback := rfl

@[simp] theorem resetAllLayers_userStates (e : Engine) :
    (e.resetAllLayers).userStates = e.userStates := rfl

@[simp] theorem resetAllLayers_layers (e : Engine) : (e.resetAllLayers).layers = e.layers := rfl

theorem resetAllLayers_trace (e : Engine) :
    (e.resetAllLayers).trace = e.trace ++ (List.range e.layers.length).map Effect.resetLayer := rfl

/-- Dispatch `handleCommand` records the cursor and touches no other field of the
playback state, whatever the command is. -/
theorem handleCommand_playback (e : Engine) (i : Int) :
    (e.handleCommand i).playback = { e.playback with currCommandIndex := i } := by
  simp only [handleCommand]
  cases hc : e.getCommand i with
  | draw cx cy cp => simp [apply_ite Engine.playback]
  | drawEnd lo la => cases lo <;> cases la <;> simp
  | colorChange co fx fy u => cases co <;> simp [apply_ite Engine.playback]
  | sizeChange sz bc bt op => simp
  | unknown => simp

end Engine

@[simp] theorem countReset_append (a b : List Effect) :
    countReset (a ++ b) = countReset a + countReset b := by
  simp [countReset, List.filter_append]

namespace Engine

/-- No command dispatch ever calls `resetLayer`: the dispatcher can emit
`clearLayer`, `copyLayer`, stroke and brush calls, but never a reset. -/
theorem handleCommand_countReset (e : Engine) (i : Int) :
    countReset (e.handleCommand i).trace = countReset e.trace := by
  simp only [handleCommand]
  cases hc : e.getCommand i with
  | draw cx cy cp =>
      simp only [Engine.updateToolState_trace, Engine.setCurr_trace]
      split <;> simp [countReset, isResetEffect]
  | drawEnd lo la => cases lo <;> cases la <;> simp [countReset, isResetEffect]
  | colorChange co fx fy u =>
      cases co
      · simp only [Engine.updateToolState_trace, Engine.setCurr_trace]
        split <;> (try split) <;> simp [countReset, isResetEffect]
      · simp [countReset, isResetEffect]
  | sizeChange sz bc bt op => simp [countReset, isResetEffect]
  | unknown => simp

/-- The replay loop never calls `resetLayer`. -/
theorem applyRange_countReset (e : Engine) (s : Int) (k : Nat) :
    countReset (e.applyRange s k).trace = countReset e.trace := by
  induction k generalizing e s with
  | zero => rfl
  | succ k ih => rw [applyRange, ih, handleCommand_countReset]

/-- Playback state after a replay loop: the cursor ends on the last index
handled, everything else is untouched. -/
theorem applyRange_playback (e : Engine) (s : Int) (k : Nat) :
    (e.applyRange s k).playback =
      if k = 0 then e.playback
      else { e.playback with currCommandIndex := s + k - 1 } := by
  induction k generalizing e s with
  | zero => rfl
  | succ k ih =>
      rw [applyRange, ih]
      cases k with
      | zero => simp [handleCommand_playback]
      | succ m =>
          simp only [Nat.succ_ne_zero, if_false, handleCommand_playback]
          congr 1
          push_cast
          ring

/-- Splitting a replay loop at an intermediate index. -/
theorem applyRange_add (e : Engine) (s : Int) (a b : Nat) :
    e.applyRange s (a + b) = (e.applyRange s a).applyRange (s + a) b := by
  induction a generalizing e s with
  | zero => simp [applyRange]
  | succ a ih =>
      have h1 : a + 1 + b = (a + b) + 1 := by omega
      rw [h1, applyRange, applyRange, ih]
      have h2 : s + 1 + (a : Int) = s + ((a : Nat) + 1 : Nat) := by push_cast; ring
      rw [h2]

end Engine

theorem clampIndex_of_mem (t num : Int) (h0 : 0 ≤ t) (h1 : t ≤ num - 1) :
    Engine.clampIndex t num = t := by
  unfold Engine.clampIndex
  rw [max_eq_right h0, min_eq_left h1]

theorem clampIndex_nonneg (t num : Int) (h : 1 ≤ num) : 0 ≤ Engine.clampIndex t num := by
  unfold Engine.clampIndex
  exact le_min (le_max_left 0 t) (by omega)

theorem clampIndex_le (t num : Int) : Engine.clampIndex t num ≤ num - 1 := by
  unfold Engine.clampIndex
  exact min_le_right _ _

namespace Engine

/-- After a seek the cursor sits exactly on the clamped target (any
session with at least one command). -/
theorem seekEngine_curr (e : Engine) (t : Int) (h : 1 ≤ e.playback.numCommands) :
    (e.seekEngine t).playback.currCommandIndex = clampIndex t e.playback.numCommands := by
  have hn0 : 0 ≤ clampIndex t e.playback.numCommands := clampIndex_nonneg _ _ h
  unfold seekEngine
  split_ifs with hlt
  · rw [applyRange_playback]
    rw [if_neg (by omega : ¬((clampIndex t e.playback.numCommands + 1).toNat = 0))]
    simp only [resetAllLayers_playback]
    omega
  · rw [applyRange_playback]
    split_ifs with h0
    · omega
    · simp only []
      omega

theorem seekEngine_numCommands (e : Engine) (t : Int) :
    (e.seekEngine t).playback.numCommands = e.playback.numCommands := by
  unfold seekEngine
  split_ifs <;> rw [applyRange_playback] <;> split_ifs <;> simp

theorem fresh_playback (drw : List Cmd) (a : ℚ) :
    (Engine.fresh drw a).playback =
      { isPlaying := false, commandsPerUpdate := 200, currCommandIndex := -1,
        numCommands := (drw.length : Int) } := rfl

theorem fresh_active_isSome (drw : List Cmd) (a : ℚ) :
    (lookupUser (Engine.fresh drw a).userStates (Engine.fresh drw a).activeUser).isSome = true := rfl

/-- A single seek on a fresh engine is a pure forward replay of the
commands `[0, clamped target]`. -/
theorem seekEngine_fresh (drw : List Cmd) (a : ℚ) (t : Int) :
    (Engine.fresh drw a).seekEngine t =
      (Engine.fresh drw a).applyRange 0 (clampIndex t drw.length + 1).toNat := by
  have hge : -1 ≤ clampIndex t (drw.length : Int) := by unfold clampIndex; omega
  have h1 : (Engine.fresh drw a).playback.numCommands = (drw.length : Int) := rfl
  have h2 : (Engine.fresh drw a).playback.currCommandIndex = -1 := rfl
  unfold seekEngine
  rw [h1, h2]
  rw [if_neg (by omega : ¬(clampIndex t (drw.length : Int) < -1))]
  norm_num

end Engine

theorem lookupUser_updateUser (f : ToolState → ToolState) (l : List (Nat × UserState)) (u : Nat) :
    Engine.lookupUser (Engine.updateUser f l u) u =
      (Engine.lookupUser l u).map fun us => { us with toolState := f us.toolState } := by
  induction l with
  | nil => rfl
  | cons kv rest ih =>
      obtain ⟨k, v⟩ := kv
      simp only [Engine.updateUser]
      by_cases h : k = u
      · subst h
        rw [if_pos rfl]
        simp [Engine.lookupUser, ih]
      · rw [if_neg h]
        simp only [Engine.lookupUser, if_neg h, ih]

namespace Engine

/-- Reading the active tool state back after writing through the alias. -/
theorem toolState_updateToolState (e : Engine) (f : ToolState → ToolState)
    (h : (lookupUser e.userStates e.activeUser).isSome = true) :
    (e.updateToolState f).toolState = f e.toolState := by
  unfold toolState updateToolState
  rw [lookupUser_updateUser]
  cases hl : lookupUser e.userStates e.activeUser with
  | none => rw [hl] at h; simp at h
  | some us => simp

/-- Writing a tool-state field never touches the per-user pixel buffer. -/
theorem alphaBuffer_updateToolState (e : Engine) (f : ToolState → ToolState) :
    (e.updateToolState f).alphaBuffer = e.alphaBuffer := by
  unfold alphaBuffer updateToolState
  rw [lookupUser_updateUser]
  cases lookupUser e.userStates e.activeUser <;> rfl

@[simp] theorem emit_toolState (e : Engine) (ef : Effect) : (e.emit ef).toolState = e.toolState := rfl

@[simp] theorem moveLayer_toolState (e : Engine) (s d : Nat) :
    (e.moveLayer s d).toolState = e.toolState := by
  unfold moveLayer; cases e.layers.get? s <;> rfl

@[simp] theorem setCurr_toolState (e : Engine) (i : Int) : (e.setCurr i).toolState = e.toolState := rfl

end Engine

end Drw

namespace Drw

/-- Seeking `0, 1, …, i` one command at a time from a fresh session lands
on the forward replay of `[0, i]`, having fired `i + 1` callbacks. -/
theorem seqSeek_fresh (drw : List Cmd) (a : ℚ) :
    ∀ i : Nat, i < drw.length →
      Session.seqSeek (Session.fresh drw a) i =
        { engine := (Engine.fresh drw a).applyRange 0 (i + 1), callbacks := i + 1 } := by
  intro i
  induction i with
  | zero =>
      intro h
      show (Session.fresh drw a).seekCommand 0 = _
      unfold Session.seekCommand Session.fresh
      rw [Engine.seekEngine_fresh]
      have hcl : Engine.clampIndex 0 (drw.length : Int) = 0 :=
        clampIndex_of_mem _ _ le_rfl (by omega)
      rw [hcl]
      norm_num
  | succ k ih =>
      intro h
      have hk : k < drw.length := by omega
      show (Session.seqSeek (Session.fresh drw a) k).seekCommand ((k : Int) + 1) = _
      rw [ih hk]
      unfold Session.seekCommand
      have hpb : ((Engine.fresh drw a).applyRange 0 (k + 1)).playback =
          { isPlaying := false, commandsPerUpdate := 200, currCommandIndex := (k : Int),
            numCommands := (drw.length : Int) } := by
        rw [Engine.applyRange_playback, if_neg (Nat.succ_ne_zero k), Engine.fresh_playback]
        push_cast
        ring_nf
      have hcl : Engine.clampIndex ((k : Int) + 1) (drw.length : Int) = (k : Int) + 1 :=
        clampIndex_of_mem _ _ (by omega) (by omega)
      simp only []
      unfold Engine.seekEngine
      rw [hpb, hcl]
      simp only []
      rw [if_neg (by omega : ¬((k : Int) + 1 < (k : Int)))]
      have hcnt : (((k : Int) + 1) - (k : Int)).toNat = 1 := by omega
      rw [hcnt]
      have hadd := Engine.applyRange_add (Engine.fresh drw a) 0 (k + 1) 1
      rw [show (0 : Int) + ((k : Nat) + 1 : Nat) = (k : Int) + 1 by push_cast; ring] at hadd
      rw [← hadd]

end Drw

namespace Drw

/-- The seek algorithm reads its target only through the clamp. -/
theorem seekEngine_congr (e : Engine) (t1 t2 : Int)
    (h : Engine.clampIndex t1 e.playback.numCommands = Engine.clampIndex t2 e.playback.numCommands) :
    e.seekEngine t1 = e.seekEngine t2 := by
  unfold Engine.seekEngine
  rw [h]

/-- C3: `seek` clamps any integer target into `[0, numCommands-1]` and the
cursor ends on the clamped target; `seek(numCommands+1000)` behaves as
`seek(numCommands-1)` and `seek(-5)` as `seek(0)`. -/
theorem seek_clamps_target (s : Session) (target : Int)
    (h : 1 ≤ s.engine.playback.numCommands) :
    (s.seekCommand target).engine.playback.currCommandIndex =
      Engine.clampIndex target s.engine.playback.numCommands ∧
    s.seekCommand (s.engine.playback.numCommands + 1000) =
      s.seekCommand (s.engine.playback.numCommands - 1) ∧
    s.seekCommand (-5) = s.seekCommand 0 := by
  refine ⟨Engine.seekEngine_curr _ _ h, ?_, ?_⟩
  · unfold Session.seekCommand
    rw [seekEngine_congr s.engine (s.engine.playback.numCommands + 1000)
      (s.engine.playback.numCommands - 1) (by unfold Engine.clampIndex; omega)]
  · unfold Session.seekCommand
    rw [seekEngine_congr s.engine (-5) 0 (by unfold Engine.clampIndex; omega)]

/-- C3 witness: a 3-command session, target 1000. -/
theorem seek_clamps_target_witness :
    ((Session.fresh threeLog 1).seekCommand 1000).engine.playback.currCommandIndex =
      Engine.clampIndex 1000 (Session.fresh threeLog 1).engine.playback.numCommands :=
  (seek_clamps_target (Session.fresh threeLog 1) 1000 (by decide)).1

/-- C4: every `seek` call fires the completion callback exactly once,
however many commands were applied (`seekCommand` ends in one
unconditional callback invocation). -/
theorem seek_fires_callback_once (s : Session) (target : Int) :
    (s.seekCommand target).callbacks = s.callbacks + 1 := rfl

/-- A seek whose clamped target equals the current cursor leaves the
engine untouched. -/
theorem seekEngine_at_cursor (e : Engine) (x : Int)
    (hc : e.playback.currCommandIndex = Engine.clampIndex x e.playback.numCommands) :
    e.seekEngine x = e := by
  unfold Engine.seekEngine
  rw [← hc]
  rw [if_neg (lt_irrefl _)]
  rw [show (e.playback.currCommandIndex - e.playback.currCommandIndex).toNat = 0 by omega]
  rfl

/-- C7: `seek(x)` immediately followed by `seek(x)` makes no backend call
during the second seek — the engine (trace included) is unchanged — and
only fires the completion callback once more. -/
theorem seek_twice_noop (s : Session) (x : Int)
    (h : 1 ≤ s.engine.playback.numCommands) :
    ((s.seekCommand x).seekCommand x).engine = (s.seekCommand x).engine ∧
    ((s.seekCommand x).seekCommand x).engine.trace = (s.seekCommand x).engine.trace ∧
    ((s.seekCommand x).seekCommand x).callbacks = (s.seekCommand x).callbacks + 1 := by
  have hc : (s.engine.seekEngine x).playback.currCommandIndex =
      Engine.clampIndex x (s.engine.seekEngine x).playback.numCommands := by
    rw [Engine.seekEngine_numCommands]
    exact Engine.seekEngine_curr _ _ h
  have heng : (s.engine.seekEngine x).seekEngine x = s.engine.seekEngine x :=
    seekEngine_at_cursor _ _ hc
  exact ⟨heng, congrArg Engine.trace heng, rfl⟩

/-- C7 witness: a 3-command session, seeking twice to 2. -/
theorem seek_twice_noop_witness :
    (((Session.fresh threeLog 1).seekCommand 2).seekCommand 2).engine =
      ((Session.fresh threeLog 1).seekCommand 2).engine :=
  (seek_twice_noop (Session.fresh threeLog 1) 2 (by decide)).1

/-- C9: a command of unknown kind is dispatched without error and changes
nothing but the cursor: tool state, layer stack, user registry and
backend trace are untouched. -/
theorem unknown_command_noop (e : Engine) (i : Int)
    (h : e.getCommand i = Cmd.unknown) :
    e.handleCommand i = e.setCurr i ∧
    (e.handleCommand i).toolState = e.toolState ∧
    (e.handleCommand i).layers = e.layers ∧
    (e.handleCommand i).userStates = e.userStates ∧
    (e.handleCommand i).trace = e.trace ∧
    (e.handleCommand i).playback.currCommandIndex = i := by
  have h1 : e.handleCommand i = e.setCurr i := by
    simp only [Engine.handleCommand, h]
  rw [h1]
  exact ⟨rfl, rfl, rfl, rfl, rfl, rfl⟩

/-- C9 witness: command 0 of a log of unknown commands. -/
theorem unknown_command_noop_witness :
    (Engine.fresh threeLog 1).handleCommand 0 = (Engine.fresh threeLog 1).setCurr 0 :=
  (unknown_command_noop (Engine.fresh threeLog 1) 0 (by decide)).1

/-- C10: `setCanvasWidth(w)` sets the width, recomputes the height as
`w / aspectRatio`, resizes every layer, and leaves the playback state, the
user registry (tool states and previously allocated pixel buffers
included) and the trace exactly as they were. -/
theorem setCanvasWidth_resizes_layers_only (e : Engine) (w : ℚ) :
    (e.setCanvasWidth w).width = some w ∧
    (e.setCanvasWidth w).height = some (w / e.aspect) ∧
    (e.setCanvasWidth w).layers =
      e.layers.map (fun l => { l with width := some w, height := some (w / e.aspect) }) ∧
    (e.setCanvasWidth w).playback = e.playback ∧
    (e.setCanvasWidth w).userStates = e.userStates ∧
    (e.setCanvasWidth w).activeUser = e.activeUser ∧
    (e.setCanvasWidth w).trace = e.trace ∧
    (e.setCanvasWidth w).alphaBuffer = e.alphaBuffer ∧
    (e.setCanvasWidth w).toolState = e.toolState :=
  ⟨rfl, rfl, rfl, rfl, rfl, rfl, rfl, rfl, rfl⟩

end Drw

namespace Drw

theorem countReset_resetList (l : List Nat) :
    countReset (l.map Effect.resetLayer) = l.length := by
  induction l with
  | nil => rfl
  | cons x xs ih => simp [countReset, isResetEffect] at ih ⊢; exact ih

/-- C2: a backward seek (clamped target before the cursor) resets each
layer exactly once — the trace grows by one `resetLayer` per stack index,
and the replay itself never emits a reset — then replays `[0, target]`
from index 0; a forward seek replays `(curr, target]` with no reset at
all. -/
theorem seek_reset_then_replay (e : Engine) (target : Int) :
    (Engine.clampIndex target e.playback.numCommands < e.playback.currCommandIndex →
      e.seekEngine target =
        (e.resetAllLayers).applyRange 0 (Engine.clampIndex target e.playback.numCommands + 1).toNat ∧
      (e.resetAllLayers).trace = e.trace ++ (List.range e.layers.length).map Effect.resetLayer ∧
      countReset (e.seekEngine target).trace = countReset e.trace + e.layers.length) ∧
    (e.playback.currCommandIndex ≤ Engine.clampIndex target e.playback.numCommands →
      e.seekEngine target =
        e.applyRange (e.playback.currCommandIndex + 1)
          (Engine.clampIndex target e.playback.numCommands - e.playback.currCommandIndex).toNat ∧
      countReset (e.seekEngine target).trace = countReset e.trace) := by
  constructor
  · intro h
    have heq : e.seekEngine target =
        (e.resetAllLayers).applyRange 0 (Engine.clampIndex target e.playback.numCommands + 1).toNat := by
      unfold Engine.seekEngine
      rw [if_pos h]
    refine ⟨heq, Engine.resetAllLayers_trace e, ?_⟩
    rw [heq, Engine.applyRange_countReset, Engine.resetAllLayers_trace]
    rw [countReset_append, countReset_resetList, List.length_range]
  · intro h
    have heq : e.seekEngine target =
        e.applyRange (e.playback.currCommandIndex + 1)
          (Engine.clampIndex target e.playback.numCommands - e.playback.currCommandIndex).toNat := by
      unfold Engine.seekEngine
      rw [if_neg (not_lt.mpr h)]
    exact ⟨heq, by rw [heq, Engine.applyRange_countReset]⟩

/-- C2 witness: seek forward to 2, then back to 0 — the trace gains
exactly one reset per layer. -/
theorem seek_reset_then_replay_witness :
    countReset ((((Session.fresh threeLog 1).seekCommand 2).engine).seekEngine 0).trace =
      countReset (((Session.fresh threeLog 1).seekCommand 2).engine).trace +
        (((Session.fresh threeLog 1).seekCommand 2).engine).layers.length :=
  ((seek_reset_then_replay (((Session.fresh threeLog 1).seekCommand 2).engine) 0).1
    (by decide)).2.2

/-- C5 counterexample: one MOVE command (active layer 0 to position 2) on
a fresh engine.  After the seek the active layer pointer is still index 0
— not 2, the moved layer's new position — and index 0 now holds layer 1,
while the moved layer 0 sits at index 2.  The claim that the pointer
references the moved layer at its new stack position is false here. -/
theorem move_pointer_counterexample :
    ((Session.fresh moveLog 1).seekCommand 0).engine.toolState.layer = 0 ∧
    ¬ ((Session.fresh moveLog 1).seekCommand 0).engine.toolState.layer = 2 ∧
    (((Session.fresh moveLog 1).seekCommand 0).engine.layers.map DrwLayer.id) = [1, 2, 0, 3, 4] := by
  decide

/-- C5 amended: a DRAW_END with `layer` present and the MOVE action
splices the active layer to position `layer` and then calls `setLayer`
with the unchanged active index — a no-op — so the active layer pointer
keeps its pre-move numeric index (and now references whatever layer
occupies that index). -/
theorem move_keeps_premove_index (e : Engine) (i : Int) (L : Nat)
    (h : e.getCommand i = Cmd.drawEnd (some L) LayerAction.newpos)
    (hs : (Engine.lookupUser e.userStates e.activeUser).isSome = true) :
    e.handleCommand i =
      ((e.moveLayer e.toolState.layer L).setLayer e.toolState.layer).setCurr i ∧
    (e.handleCommand i).toolState.layer = e.toolState.layer := by
  have h1 : e.handleCommand i =
      ((e.moveLayer e.toolState.layer L).setLayer e.toolState.layer).setCurr i := by
    simp only [Engine.handleCommand, h]
  refine ⟨h1, ?_⟩
  rw [h1, Engine.setCurr_toolState]
  unfold Engine.setLayer
  rw [Engine.toolState_updateToolState]
  · rw [Engine.moveLayer_userStates, Engine.moveLayer_activeUser]
    exact hs

/-- C5 amended witness: the MOVE command of `moveLog` on a fresh engine. -/
theorem move_keeps_premove_index_witness :
    (Engine.fresh moveLog 1).handleCommand 0 =
      (((Engine.fresh moveLog 1).moveLayer (Engine.fresh moveLog 1).toolState.layer 2).setLayer
        (Engine.fresh moveLog 1).toolState.layer).setCurr 0 :=
  (move_keeps_premove_index (Engine.fresh moveLog 1) 0 2 (by decide) (by decide)).1

end Drw

namespace Drw

namespace Engine

@[simp] theorem emit_alphaBuffer (e : Engine) (ef : Effect) :
    (e.emit ef).alphaBuffer = e.alphaBuffer := rfl

@[simp] theorem setCurr_alphaBuffer (e : Engine) (i : Int) :
    (e.setCurr i).alphaBuffer = e.alphaBuffer := rfl

@[simp] theorem setCurr_activeUser (e : Engine) (i : Int) :
    (e.setCurr i).activeUser = e.activeUser := rfl

@[simp] theorem setCurr_userStates (e : Engine) (i : Int) :
    (e.setCurr i).userStates = e.userStates := rfl

theorem updateUser_length (f : ToolState → ToolState) (l : List (Nat × UserState)) (u : Nat) :
    (updateUser f l u).length = l.length := by
  induction l with
  | nil => rfl
  | cons kv rest ih =>
      obtain ⟨k, v⟩ := kv
      simp [updateUser, ih]

end Engine

/-- C6: COLOR_CHANGE with a color sets the tool color and refreshes the
brush; without a color it flips horizontally if `flipX` is set, else
vertically if `flipY` is set (at most one flip, horizontal first), and
updates the tool state's `user` field without reselecting the active
rendering context (`activeUser`, the aliased `alphaBuffer` and the user
registry are untouched). -/
theorem colorChange_dispatch (e : Engine) (i : Int) (c : Nat) (fx fy : Bool) (u : Nat) :
    (e.getCommand i = Cmd.colorChange (some c) fx fy u →
      e.handleCommand i =
        ((e.updateToolState fun ts => { ts with color := c }).emit Effect.updateBrush).setCurr i) ∧
    (e.getCommand i = Cmd.colorChange none true fy u →
      e.handleCommand i =
        ((e.emit (Effect.flip true false)).updateToolState fun ts => { ts with user := u }).setCurr i) ∧
    (e.getCommand i = Cmd.colorChange none false true u →
      e.handleCommand i =
        ((e.emit (Effect.flip false true)).updateToolState fun ts => { ts with user := u }).setCurr i) ∧
    (e.getCommand i = Cmd.colorChange none false false u →
      e.handleCommand i =
        (e.updateToolState fun ts => { ts with user := u }).setCurr i) ∧
    (e.getCommand i = Cmd.colorChange none fx fy u →
      (e.handleCommand i).activeUser = e.activeUser ∧
      (e.handleCommand i).alphaBuffer = e.alphaBuffer ∧
      (e.handleCommand i).userStates.length = e.userStates.length) ∧
    (e.getCommand i = Cmd.colorChange (some c) fx fy u →
      (Engine.lookupUser e.userStates e.activeUser).isSome = true →
      (e.handleCommand i).toolState = { e.toolState with color := c }) ∧
    (e.getCommand i = Cmd.colorChange none fx fy u →
      (Engine.lookupUser e.userStates e.activeUser).isSome = true →
      (e.handleCommand i).toolState = { e.toolState with user := u }) := by
  have hsome : ∀ _ : e.getCommand i = Cmd.colorChange (some c) fx fy u,
      e.handleCommand i =
        ((e.updateToolState fun ts => { ts with color := c }).emit Effect.updateBrush).setCurr i := by
    intro h
    simp only [Engine.handleCommand, h]
  have hflipx : ∀ _ : e.getCommand i = Cmd.colorChange none true fy u,
      e.handleCommand i =
        ((e.emit (Effect.flip true false)).updateToolState fun ts => { ts with user := u }).setCurr i := by
    intro h
    simp only [Engine.handleCommand, h, if_true]
  have hflipy : ∀ _ : e.getCommand i = Cmd.colorChange none false true u,
      e.handleCommand i =
        ((e.emit (Effect.flip false true)).updateToolState fun ts => { ts with user := u }).setCurr i := by
    intro h
    simp only [Engine.handleCommand, h]
    norm_num
  have hnoflip : ∀ _ : e.getCommand i = Cmd.colorChange none false false u,
      e.handleCommand i =
        (e.updateToolState fun ts => { ts with user := u }).setCurr i := by
    intro h
    simp only [Engine.handleCommand, h]
    norm_num
  refine ⟨hsome, hflipx, hflipy, hnoflip, ?_, ?_, ?_⟩
  · intro h
    cases fx with
    | true =>
        rw [hflipx (by rw [h])]
        refine ⟨rfl, ?_, ?_⟩
        · rw [Engine.setCurr_alphaBuffer, Engine.alphaBuffer_updateToolState, Engine.emit_alphaBuffer]
        · show (Engine.updateUser _ _ _).length = _
          rw [Engine.updateUser_length]
          rfl
    | false =>
        cases fy with
        | true =>
            rw [hflipy (by rw [h])]
            refine ⟨rfl, ?_, ?_⟩
            · rw [Engine.setCurr_alphaBuffer, Engine.alphaBuffer_updateToolState, Engine.emit_alphaBuffer]
            · show (Engine.updateUser _ _ _).length = _
              rw [Engine.updateUser_length]
              rfl
        | false =>
            rw [hnoflip (by rw [h])]
            refine ⟨rfl, ?_, ?_⟩
            · rw [Engine.setCurr_alphaBuffer, Engine.alphaBuffer_updateToolState]
            · show (Engine.updateUser _ _ _).length = _
              rw [Engine.updateUser_length]
  · intro h hs
    rw [hsome h, Engine.setCurr_toolState, Engine.emit_toolState, Engine.toolState_updateToolState _ _ hs]
  · intro h hs
    cases fx with
    | true =>
        rw [hflipx (by rw [h]), Engine.setCurr_toolState, Engine.toolState_updateToolState]
        · rfl
        · rw [Engine.emit_userStates, Engine.emit_activeUser]
          exact hs
    | false =>
        cases fy with
        | true =>
            rw [hflipy (by rw [h]), Engine.setCurr_toolState, Engine.toolState_updateToolState]
            · rfl
            · rw [Engine.emit_userStates, Engine.emit_activeUser]
              exact hs
        | false =>
            rw [hnoflip (by rw [h]), Engine.setCurr_toolState, Engine.toolState_updateToolState _ _ hs]

/-- C6 witness: command 0 of `colorLog` (a COLOR_CHANGE carrying color 7). -/
theorem colorChange_dispatch_witness :
    (Engine.fresh colorLog 1).handleCommand 0 =
      (((Engine.fresh colorLog 1).updateToolState fun ts => { ts with color := 7 }).emit
        Effect.updateBrush).setCurr 0 :=
  (colorChange_dispatch (Engine.fresh colorLog 1) 0 7 false false 3).1 (by decide)

end Drw

namespace Drw

/-- C1 counterexample: `moveLog2` = [MOVE active layer to position 2,
unknown].  Seek to 1 and then back to 0: the cursor is 0, yet the layer
stack differs from the one obtained by applying exactly command 0 to a
fresh engine — the backward seek replayed the MOVE on the already-permuted
stack (layer order is not reset), so the rendering state is *not* that of
applying commands `[0, currCommandIndex]` alone. -/
theorem seek_prefix_consistency_counterexample :
    ((((Session.fresh moveLog2 1).seekCommand 1).seekCommand 0).engine.playback.currCommandIndex = 0) ∧
    ¬ ((((Session.fresh moveLog2 1).seekCommand 1).seekCommand 0).engine.layers =
        ((Engine.fresh moveLog2 1).applyRange 0 1).layers) := by
  decide

/-- C1 amended: single-seek versus one-command-at-a-time seeks from a
fresh engine coincide exactly (state, layer stack, cursor and backend
trace), and any single seek from a fresh engine equals the pure forward
replay of `[0, clamped target]`; the `[0, currCommandIndex]`-consistency
holds for such forward-only histories, not after a backward seek. -/
theorem seek_granularity_convergence (drw : List Cmd) (a : ℚ) (i : Nat) (h : i < drw.length) :
    (Session.seqSeek (Session.fresh drw a) i).engine =
      ((Session.fresh drw a).seekCommand i).engine ∧
    ∀ t : Int, ((Session.fresh drw a).seekCommand t).engine =
      (Engine.fresh drw a).applyRange 0 (Engine.clampIndex t drw.length + 1).toNat := by
  constructor
  · rw [seqSeek_fresh drw a i h]
    show (Engine.fresh drw a).applyRange 0 (i + 1) = (Engine.fresh drw a).seekEngine i
    rw [Engine.seekEngine_fresh]
    rw [clampIndex_of_mem (i : Int) (drw.length : Int) (by omega) (by omega)]
    rw [show ((i : Int) + 1).toNat = i + 1 by omega]
  · intro t
    exact Engine.seekEngine_fresh drw a t

/-- C1 amended witness: `seek(0); seek(1)` equals `seek(1)` on a fresh
2-command session. -/
theorem seek_granularity_convergence_witness :
    (Session.seqSeek (Session.fresh moveLog2 1) 1).engine =
      ((Session.fresh moveLog2 1).seekCommand 1).engine :=
  (seek_granularity_convergence moveLog2 1 1 (by decide)).1

theorem playbackState_ext (p q : PlaybackState)
    (h1 : p.isPlaying = q.isPlaying) (h2 : p.commandsPerUpdate = q.commandsPerUpdate)
    (h3 : p.currCommandIndex = q.currCommandIndex) (h4 : p.numCommands = q.numCommands) :
    p = q := by
  cases p
  cases q
  simp only [] at h1 h2 h3 h4
  rw [h1, h2, h3, h4]

/-- A seek rewrites only the cursor of the playback record. -/
theorem seekEngine_playback (e : Engine) (t : Int) (h : 1 ≤ e.playback.numCommands) :
    (e.seekEngine t).playback =
      { e.playback with currCommandIndex := Engine.clampIndex t e.playback.numCommands } := by
  refine playbackState_ext _ _ ?_ ?_ ?_ ?_
  · unfold Engine.seekEngine
    split_ifs <;> rw [Engine.applyRange_playback] <;> split_ifs <;> simp
  · unfold Engine.seekEngine
    split_ifs <;> rw [Engine.applyRange_playback] <;> split_ifs <;> simp
  · exact Engine.seekEngine_curr e t h
  · exact Engine.seekEngine_numCommands e t

/-- One playback-tick seek, tracked on the playback record. -/
theorem tick_seek_playback (s : Session) (c n cur : Int)
    (hp : s.engine.playback = ⟨true, c, cur, n⟩) (hn : 1 ≤ n) :
    (s.seekCommand (Session.tickTarget s)).engine.playback =
      ⟨true, c, Engine.clampIndex (cur + c) n, n⟩ := by
  show (s.engine.seekEngine (Session.tickTarget s)).playback = _
  rw [seekEngine_playback _ _ (by rw [hp]; exact hn)]
  unfold Session.tickTarget
  rw [hp]

@[simp] theorem pause_curr (s : Session) :
    (s.pause).engine.playback.currCommandIndex = s.engine.playback.currCommandIndex := rfl

@[simp] theorem pause_isPlaying (s : Session) :
    (s.pause).engine.playback.isPlaying = false := rfl

/-- Three playback ticks on a running 450-command session with batch size
200: cursors 199, 399, 449; the first two ticks reschedule, the third
clears the running flag. -/
theorem tick_chain (s : Session) (hp : s.engine.playback = ⟨true, 200, -1, 450⟩) :
    s.playbackTick.2 = true ∧
    s.playbackTick.1.engine.playback.currCommandIndex = 199 ∧
    s.playbackTick.1.playbackTick.2 = true ∧
    s.playbackTick.1.playbackTick.1.engine.playback.currCommandIndex = 399 ∧
    s.playbackTick.1.playbackTick.1.playbackTick.2 = false ∧
    s.playbackTick.1.playbackTick.1.playbackTick.1.engine.playback.currCommandIndex = 449 ∧
    s.playbackTick.1.playbackTick.1.playbackTick.1.engine.playback.isPlaying = false ∧
    s.engine.playback.commandsPerUpdate = 200 ∧
    s.engine.playback.numCommands = 450 := by
  have hs1pb := tick_seek_playback s 200 450 (-1) hp (by norm_num)
  rw [show Engine.clampIndex (-1 + 200) 450 = 199 by decide] at hs1pb
  have ht1 : s.playbackTick = (s.seekCommand (Session.tickTarget s), true) := by
    unfold Session.playbackTick
    rw [if_pos ⟨by rw [hs1pb], by rw [hs1pb]; norm_num⟩]
  rw [ht1]
  set s1 := s.seekCommand (Session.tickTarget s) with hs1def
  have hs2pb := tick_seek_playback s1 200 450 199 hs1pb (by norm_num)
  rw [show Engine.clampIndex (199 + 200) 450 = 399 by decide] at hs2pb
  have ht2 : s1.playbackTick = (s1.seekCommand (Session.tickTarget s1), true) := by
    unfold Session.playbackTick
    rw [if_pos ⟨by rw [hs2pb], by rw [hs2pb]; norm_num⟩]
  rw [ht2]
  set s2 := s1.seekCommand (Session.tickTarget s1) with hs2def
  have hs3pb := tick_seek_playback s2 200 450 399 hs2pb (by norm_num)
  rw [show Engine.clampIndex (399 + 200) 450 = 449 by decide] at hs3pb
  have ht3 : s2.playbackTick = ((s2.seekCommand (Session.tickTarget s2)).pause, false) := by
    unfold Session.playbackTick
    rw [if_neg]
    rw [hs3pb]
    norm_num
  rw [ht3]
  refine ⟨rfl, by rw [hs1pb], rfl, by rw [hs2pb], rfl, ?_, rfl, ?_, ?_⟩
  · rw [pause_curr, hs3pb]
  · rw [hp]
  · rw [hp]

set_option maxRecDepth 2000 in
/-- C8: each playback tick seeks forward by `commandsPerUpdate` and
reschedules exactly when the running flag is still set and the cursor has
not reached `numCommands - 1` (clearing the flag otherwise); with
`commandsPerUpdate = 200` and `numCommands = 450`, `play()` followed by
three ticks ends at cursor 449 with `isPlaying = false`. -/
theorem playback_loop_behaviour :
    (∀ s : Session,
      (s.playbackTick.2 = true ↔
        ((s.seekCommand (Session.tickTarget s)).engine.playback.isPlaying = true ∧
         (s.seekCommand (Session.tickTarget s)).engine.playback.currCommandIndex <
           (s.seekCommand (Session.tickTarget s)).engine.playback.numCommands - 1)) ∧
      (s.playbackTick.2 = true → s.playbackTick.1 = s.seekCommand (Session.tickTarget s)) ∧
      (s.playbackTick.2 = false →
        s.playbackTick.1 = (s.seekCommand (Session.tickTarget s)).pause ∧
        s.playbackTick.1.engine.playback.isPlaying = false)) ∧
    ((Session.fresh longLog 1).play.playbackTick.2 = true ∧
     (Session.fresh longLog 1).play.playbackTick.1.engine.playback.currCommandIndex = 199 ∧
     (Session.fresh longLog 1).play.playbackTick.1.playbackTick.2 = true ∧
     (Session.fresh longLog 1).play.playbackTick.1.playbackTick.1.engine.playback.currCommandIndex = 399 ∧
     (Session.fresh longLog 1).play.playbackTick.1.playbackTick.1.playbackTick.2 = false ∧
     (Session.fresh longLog 1).play.playbackTick.1.playbackTick.1.playbackTick.1.engine.playback.currCommandIndex = 449 ∧
     (Session.fresh longLog 1).play.playbackTick.1.playbackTick.1.playbackTick.1.engine.playback.isPlaying = false ∧
     (Session.fresh longLog 1).play.engine.playback.commandsPerUpdate = 200 ∧
     (Session.fresh longLog 1).play.engine.playback.numCommands = 450) := by
  constructor
  · intro s
    refine ⟨?_, ?_, ?_⟩
    · unfold Session.playbackTick
      split_ifs with hcond
      · simp [hcond]
      · simp [hcond]
    · unfold Session.playbackTick
      split_ifs with hcond
      · intro _
        rfl
      · intro hfalse
        simp at hfalse
    · unfold Session.playbackTick
      split_ifs with hcond
      · intro hfalse
        simp at hfalse
      · intro _
        exact ⟨rfl, rfl⟩
  · exact tick_chain _ rfl

/-- C8 witness: the first tick of the 450-command example reschedules, so
its session part is the forward seek by one batch. -/
theorem playback_loop_behaviour_witness :
    (Session.fresh longLog 1).play.playbackTick.1 =
      (Session.fresh longLog 1).play.seekCommand (Session.tickTarget (Session.fresh longLog 1).play) :=
  ((playback_loop_behaviour.1 (Session.fresh longLog 1).play).2.1) (playback_loop_behaviour.2.1)

end Drw
